import Mathlib

/-!
Shallow embedding of the media-streaming-server aggregation core
(movie API service and bulk-load route layer), with theorems checking the
specification's claims about deduplication, caching, streaming-URL
resolution and bulk loading.

Conventions of the embedding:
* JavaScript values that may be null/undefined are Option; JS string
  truthiness (empty string is falsy) is the function truthy below.
* Numeric passthrough fields never consulted by the deduplicator, the
  adapters' filters or any claim (rating, popularity) are omitted from the
  record type; all fields the core logic reads are present.
* Async functions are pure functions of their inputs plus explicit oracles
  for network effects (an HTTP HEAD oracle for liveness probes, an
  Except-valued upstream response for adapter fetches).
-/

namespace MediaServer

/-- JS truthiness of a nullable string: null/undefined and the empty string
are falsy, every other string is truthy. -/
def truthy : Option String → Bool
  | none => false
  | some s => s != ""

/-- JS truthiness of a nullable integer id (0 and null/undefined falsy). -/
def truthyNat : Option Nat → Bool
  | none => false
  | some n => n != 0

/-- Canonical media record shape produced by the provider adapters and
consumed by the deduplicator (duck-typed in the source; fields read by the
core logic are modelled, numeric rating/popularity passthroughs omitted). -/
structure Media where
  id : Option String := none
  title : Option String := none
  originalTitle : Option String := none
  overview : Option String := none
  releaseDate : Option String := none
  year : Option String := none
  posterUrl : Option String := none
  backdropUrl : Option String := none
  type : Option String := none
  source : Option String := none
  tmdbId : Option Nat := none
  genres : Option (List String) := none
  genreIds : List Nat := []
  hasThumbnail : Bool := false
  streamingUrl : Option String := none
  hasStreaming : Bool := false
  subtitles : List String := []
deriving DecidableEq, Repr

/-- Character class of the JS regex word class: letters, digits, underscore. -/
def isWordChar (c : Char) : Bool :=
  c.isAlpha || c.isDigit || c == '_'

/-- Character class of the JS regex whitespace class (ASCII range). -/
def isSpaceChar (c : Char) : Bool :=
  c == ' ' || c == '\t' || c == '\n' || c == '\r' || c == '\x0b' || c == '\x0c'

/-- Split a character list into maximal runs of non-whitespace characters;
cur accumulates the current run in reverse. -/
def splitTokensGo (cur : List Char) : List Char → List (List Char)
  | [] => if cur.isEmpty then [] else [cur.reverse]
  | c :: rest =>
    if isSpaceChar c then
      if cur.isEmpty then splitTokensGo [] rest
      else cur.reverse :: splitTokensGo [] rest
    else splitTokensGo (c :: cur) rest

/-- Join strings with single spaces: the combined effect of replacing each
whitespace run by one space and trimming. -/
def joinSpace : List (List Char) → String
  | [] => ""
  | [w] => String.mk w
  | w :: rest => String.mk w ++ " " ++ joinSpace rest

/-- normalizeTitle from the source: non-strings/falsy give the empty
string; otherwise lowercase, drop characters outside word/space classes,
collapse whitespace runs to single spaces and trim. -/
def normalizeTitle (t : Option String) : String :=
  match t with
  | none => ""
  | some s =>
    if s == "" then ""
    else
      let kept := (s.data.map Char.toLower).filter fun c => isWordChar c || isSpaceChar c
      joinSpace (splitTokensGo [] kept)

/-- The title JS picks for the dedup key: title when truthy, else
originalTitle. -/
def titleForKey (m : Media) : Option String :=
  if truthy m.title then m.title else m.originalTitle

/-- Everything of the string before the first dash: releaseDate.split at
the dash, index zero. -/
def beforeDash (s : String) : String :=
  String.mk (s.data.takeWhile fun c => c != '-')

/-- The year JS picks for the dedup key: year when truthy, else the part of
releaseDate before the first dash when releaseDate is truthy, else empty. -/
def yearForKey (m : Media) : String :=
  if truthy m.year then m.year.getD ""
  else if truthy m.releaseDate then beforeDash (m.releaseDate.getD "")
  else ""

/-- getDedupKey from the source: normalized title, underscore, year. -/
def getDedupKey (m : Media) : String :=
  normalizeTitle (titleForKey m) ++ "_" ++ yearForKey m

/-- The validity guard of the dedup loop: the item must have a truthy title
or originalTitle. -/
def validItem (m : Media) : Bool :=
  truthy m.title || truthy m.originalTitle

/-- The replacement criterion of the dedup loop: prefer the incoming item
when it has a source/streaming/poster/non-empty genres that the stored one
lacks. -/
def preferNew (item existing : Media) : Bool :=
  (truthy item.source && !truthy existing.source) ||
  (item.hasStreaming && !existing.hasStreaming) ||
  (truthy item.posterUrl && !truthy existing.posterUrl) ||
  ((item.genres.getD []).length > 0 && (existing.genres.getD []).length == 0)

/-- Lookup in the insertion-ordered key/value list modelling the JS Map. -/
def findVal : List (String × Media) → String → Option Media
  | [], _ => none
  | (k, v) :: rest, key => if k == key then some v else findVal rest key

/-- In-place value replacement for an existing key, preserving insertion
order, modelling JS Map.set on a present key. -/
def replaceVal : List (String × Media) → String → Media → List (String × Media)
  | [], _, _ => []
  | (k, v) :: rest, key, item =>
    if k == key then (k, item) :: rest else (k, v) :: replaceVal rest key item

/-- One iteration of the dedup loop body over the seen map: skip items
without a usable title, skip items whose key reduces to the bare separator,
insert unseen keys at the end, replace in place on improvement. -/
def dedupStep (seen : List (String × Media)) (item : Media) : List (String × Media) :=
  if !validItem item then seen
  else if getDedupKey item == "" || getDedupKey item == "_" then seen
  else
    match findVal seen (getDedupKey item) with
    | none => seen ++ [(getDedupKey item, item)]
    | some existing =>
      if preferNew item existing then replaceVal seen (getDedupKey item) item
      else seen

/-- deduplicateMedia from the source: fold the loop body over the input in
order and return the value list of the map in insertion order. -/
def deduplicateMedia (mediaArray : List Media) : List Media :=
  (mediaArray.foldl dedupStep []).map Prod.snd

/-! ### Response cache -/

/-- Cache expiry constant from the source: 24 hours in milliseconds. -/
def cacheExpiry : Int := 24 * 60 * 60 * 1000

/-- The cache directory as a map from key to the stored file content
(timestamp in epoch milliseconds paired with the payload), or none when no
file exists for the key. -/
def CacheStore (α : Type) := String → Option (Int × α)

/-- setCache from the source: overwrite the key's file with the current
timestamp and the data. -/
def setCache {α : Type} (store : CacheStore α) (key : String) (now : Int)
    (data : α) : CacheStore α :=
  fun k => if k = key then some (now, data) else store k

/-- getCached from the source: read the key's file if present and return
the data only when the timestamp is truthy and now minus timestamp is
strictly below the expiry; otherwise miss. -/
def getCached {α : Type} (store : CacheStore α) (key : String) (now : Int) :
    Option α :=
  match store key with
  | none => none
  | some (timestamp, data) =>
    if timestamp != 0 && now - timestamp < cacheExpiry then some data
    else none

/-! ### Streaming resolver -/

/-- One fallback streaming source of the resolver configuration. -/
structure Source where
  name : String
  baseUrl : String
  priority : Int
  enabled : Bool
deriving DecidableEq, Repr

/-- The static fallbackSources list from the service constructor. -/
def defaultFallbackSources : List Source :=
  [ { name := "cinetaro", baseUrl := "https://apicinetaro.falex43350.workers.dev",
      priority := 1, enabled := true },
    { name := "cinetaro-alt", baseUrl := "https://cinetaro-api.vercel.app",
      priority := 2, enabled := true },
    { name := "vidsrc", baseUrl := "https://vidsrc.me",
      priority := 3, enabled := true },
    { name := "embed", baseUrl := "https://embed.su",
      priority := 4, enabled := true } ]

/-- The options argument of the resolver with its source-level defaults. -/
structure StreamOptions where
  season : Nat := 1
  episode : Nat := 1
  language : String := "english"
  animeType : String := "sub"
deriving DecidableEq, Repr

/-- getStreamingUrlFromSource from the source file: null for a missing or
disabled source, else the per-source per-type URL template, null for an
unknown source name or unknown type. -/
def getStreamingUrlFromSource (id : String) (type : String) (o : StreamOptions)
    (source : Option Source) : Option String :=
  match source with
  | none => none
  | some src =>
    if !src.enabled then none
    else if src.name == "cinetaro" || src.name == "cinetaro-alt" then
      if type == "movie" then
        some (src.baseUrl ++ "/movie/" ++ id ++ "/" ++ o.language)
      else if type == "tv" then
        some (src.baseUrl ++ "/tv/" ++ id ++ "/" ++ toString o.season ++ "/"
          ++ toString o.episode ++ "/" ++ o.language)
      else if type == "anime" then
        some (src.baseUrl ++ "/anime/anilist/" ++ o.animeType ++ "/" ++ id
          ++ "/" ++ toString o.season ++ "/" ++ toString o.episode)
      else none
    else if src.name == "vidsrc" then
      if type == "movie" then some (src.baseUrl ++ "/embed/movie/" ++ id)
      else if type == "tv" then
        some (src.baseUrl ++ "/embed/tv/" ++ id ++ "/" ++ toString o.season
          ++ "-" ++ toString o.episode)
      else none
    else if src.name == "embed" then
      if type == "movie" then some (src.baseUrl ++ "/embed/movie/" ++ id)
      else if type == "tv" then
        some (src.baseUrl ++ "/embed/tv/" ++ id ++ "/" ++ toString o.season
          ++ "/" ++ toString o.episode)
      else none
    else none

/-- The outcome of the HTTP HEAD probe issued against a URL: none for a
network error or timeout, some status for a received status code. -/
def HeadOracle := String → Option Nat

/-- checkStreamingUrlAvailability from the source: false for a null URL; a
network error, a timeout or a 5xx status (rejected by the status validator)
lands in the catch and gives false; otherwise live exactly for a 2xx. -/
def checkStreamingUrlAvailability (head : HeadOracle) (url : Option String) :
    Bool :=
  match url with
  | none => false
  | some u =>
    match head u with
    | none => false
    | some status =>
      if 500 ≤ status then false
      else decide (200 ≤ status) && decide (status < 300)

/-- The enabled sources sorted ascending by priority, as computed at the
top of both resolvers; the source's stable comparator sort is modelled by a
stable insertion sort, which agrees with it on every input. -/
def sortedEnabledSources (sources : List Source) : List Source :=
  (sources.filter (·.enabled)).insertionSort fun a b => a.priority ≤ b.priority

/-- The verified-resolution loop over the sorted enabled sources, returning
the first URL judged live together with the list of URLs probed, in probe
order. -/
def resolveVerifiedLoop (head : HeadOracle) (id type : String)
    (o : StreamOptions) : List Source → Option String × List String
  | [] => (none, [])
  | s :: rest =>
    match getStreamingUrlFromSource id type o (some s) with
    | none => resolveVerifiedLoop head id type o rest
    | some url =>
      if checkStreamingUrlAvailability head (some url) then (some url, [url])
      else
        ((resolveVerifiedLoop head id type o rest).1,
          url :: (resolveVerifiedLoop head id type o rest).2)

/-- getStreamingUrl from the source, instrumented with the list of URLs the
liveness probe was issued for: null when the feature toggle is off; in fast
mode the primary enabled source's URL with no probes; in verified mode the
first live URL, else the primary enabled source's URL, else null. -/
def getStreamingUrlWithTrace (useCinetaro : Bool) (sources : List Source)
    (head : HeadOracle) (id type : String) (o : StreamOptions)
    (checkAvailability : Bool) : Option String × List String :=
  if !useCinetaro then (none, [])
  else
    let sorted := sortedEnabledSources sources
    if !checkAvailability then
      match sorted with
      | [] => (none, [])
      | primary :: _ => (getStreamingUrlFromSource id type o (some primary), [])
    else
      let r := resolveVerifiedLoop head id type o sorted
      match r.1 with
      | some url => (some url, r.2)
      | none =>
        match sorted with
        | [] => (none, r.2)
        | primary :: _ =>
          (getStreamingUrlFromSource id type o (some primary), r.2)

/-- getStreamingUrl from the source (the returned URL of the traced
version). -/
def getStreamingUrl (useCinetaro : Bool) (sources : List Source)
    (head : HeadOracle) (id type : String) (o : StreamOptions)
    (checkAvailability : Bool) : Option String :=
  (getStreamingUrlWithTrace useCinetaro sources head id type o
    checkAvailability).1

/-- getStreamingUrlSync from the source: null when the toggle is off, else
the primary enabled source's URL, else null; never probes. -/
def getStreamingUrlSync (useCinetaro : Bool) (sources : List Source)
    (id type : String) (o : StreamOptions) : Option String :=
  if !useCinetaro then none
  else
    match sortedEnabledSources sources with
    | [] => none
    | primary :: _ => getStreamingUrlFromSource id type o (some primary)

/-- checkCinetaroAvailability from the source: false when the toggle is
off, else whether the verified resolver returned a non-null URL. -/
def checkCinetaroAvailability (useCinetaro : Bool) (sources : List Source)
    (head : HeadOracle) (id type : String) (o : StreamOptions) : Bool :=
  if !useCinetaro then false
  else (getStreamingUrl useCinetaro sources head id type o true).isSome

/-! ### Bulk-load batching in the route layer -/

/-- Observable scheduling events of the per-endpoint bulk-load loop: a
batch of pages fetched concurrently, or an inter-batch wait of the given
number of milliseconds. -/
inductive BulkEvent where
  | batch (pages : List Nat)
  | delay (ms : Nat)
deriving DecidableEq, Repr

/-- The per-endpoint batching loop of the bulk routes, with the source's
constant batch size of 2: starting at batchStart, each iteration fetches
pages batchStart through min (batchStart + 1) endPage concurrently, then
waits delayMs only when the batch's last page is strictly before endPage,
then advances by the batch size. -/
def bulkBatchLoop (delayMs : Nat) (batchStart endPage : Nat) : List BulkEvent :=
  if _h : batchStart ≤ endPage then
    (BulkEvent.batch (List.range' batchStart
        (min (batchStart + 1) endPage + 1 - batchStart)) ::
      (if min (batchStart + 1) endPage < endPage then [BulkEvent.delay delayMs]
       else [])) ++
      bulkBatchLoop delayMs (batchStart + 2) endPage
  else []
termination_by endPage + 1 - batchStart
decreasing_by omega

/-- The page range and batching of the bulk movies endpoint: page count is
capped at 20 and the inter-batch delay is 100 milliseconds. -/
def bulkMoviesTrace (startPage pagesParam : Nat) : List BulkEvent :=
  bulkBatchLoop 100 startPage (startPage + min pagesParam 20 - 1)

/-- The page range and batching of the bulk anime endpoint: page count is
capped at 20 and the inter-batch delay is 200 milliseconds. -/
def bulkAnimeTrace (startPage pagesParam : Nat) : List BulkEvent :=
  bulkBatchLoop 200 startPage (startPage + min pagesParam 20 - 1)

/-- The pages fetched by a trace, batch by batch in order; within a batch
the concurrent results are reassembled in page order by the loop. -/
def tracePages : List BulkEvent → List Nat
  | [] => []
  | BulkEvent.batch ps :: rest => ps ++ tracePages rest
  | BulkEvent.delay _ :: rest => tracePages rest

/-- A provider page fetch as seen by the bulk routes: a page number maps to
either an upstream failure or a list of records. -/
def PageFetch := Nat → Except String (List Media)

/-- The per-page catch handler in the bulk routes: substitute an empty page
for a failed fetch. -/
def fetchPageSafe (f : PageFetch) (p : Nat) : List Media :=
  match f p with
  | Except.ok l => l
  | Except.error _ => []

/-- The records accumulated by the bulk loop: for each provider in order,
all pages of the trace in order, each failure degraded to an empty page,
concatenated into one flat list. -/
def bulkRecords (providers : List PageFetch) (delayMs startPage endPage : Nat) :
    List Media :=
  providers.foldl
    (fun acc f =>
      acc ++ (tracePages (bulkBatchLoop delayMs startPage endPage)).flatMap
        (fetchPageSafe f))
    []

/-! ### Provider adapters (TMDB movie listing and search) -/

/-- The resolver configuration the adapters consult when stamping
streaming fields onto mapped records. -/
structure ResolverConfig where
  useCinetaro : Bool
  fallbackSources : List Source
deriving Repr

/-- The lazily loaded genre id to name map for one media type. -/
def GenreMap := Nat → Option String

/-- mapGenres from the source: map each id through the genre map, fall back
to a synthetic placeholder name, drop falsy entries. -/
def mapGenres (gm : GenreMap) (genreIds : List Nat) : List String :=
  (genreIds.map fun i =>
    match gm i with
    | some nm => if nm != "" then nm else "Genre " ++ toString i
    | none => "Genre " ++ toString i).filter fun s => s != ""

/-- One item of a TMDB movie listing or search response body, with the
fields the adapters read. -/
structure TmdbItem where
  id : Nat
  title : Option String := none
  original_title : Option String := none
  overview : Option String := none
  release_date : Option String := none
  poster_path : Option String := none
  backdrop_path : Option String := none
  genre_ids : Option (List Nat) := none
deriving DecidableEq, Repr

/-- TMDB poster image URL prefix from the service constructor. -/
def tmdbImageUrl : String := "https://image.tmdb.org/t/p/w500"

/-- The record mapping shared by the TMDB movie listing and search
adapters, field for field from the source. -/
def mapTmdbMovieItem (cfg : ResolverConfig) (gm : GenreMap) (item : TmdbItem) :
    Media :=
  { id := some ("tmdb_movie_" ++ toString item.id)
    title := item.title
    originalTitle := item.original_title
    overview := item.overview
    releaseDate := item.release_date
    year :=
      if truthy item.release_date then
        some (beforeDash (item.release_date.getD ""))
      else none
    posterUrl :=
      if truthy item.poster_path then
        some (tmdbImageUrl ++ item.poster_path.getD "")
      else none
    backdropUrl :=
      if truthy item.backdrop_path then
        some ("https://image.tmdb.org/t/p/w1280" ++ item.backdrop_path.getD "")
      else none
    type := some "movie"
    source := some "tmdb"
    tmdbId := some item.id
    genres := some (mapGenres gm (item.genre_ids.getD []))
    genreIds := item.genre_ids.getD []
    hasThumbnail := truthy item.poster_path
    streamingUrl :=
      if cfg.useCinetaro then
        getStreamingUrlSync cfg.useCinetaro cfg.fallbackSources
          (toString item.id) "movie" {}
      else none
    hasStreaming := cfg.useCinetaro
    subtitles :=
      if cfg.useCinetaro then ["english", "spanish", "french", "german"]
      else [] }

/-- searchMovies from the source as a function of its inputs: empty without
an API key; the cached mapped records on a cache hit; on a miss, an
upstream failure degrades to empty, and a response body is mapped item by
item with no title or poster filter. -/
def searchMovies (cfg : ResolverConfig) (gm : GenreMap) (apiKey : Option String)
    (cached : Option (List Media)) (resp : Except String (List TmdbItem)) :
    List Media :=
  if !truthy apiKey then []
  else
    match cached with
    | some c => c
    | none =>
      match resp with
      | Except.error _ => []
      | Except.ok items => items.map (mapTmdbMovieItem cfg gm)

/-- getPopularMovies from the source as a function of its inputs: like the
search adapter but the mapped records are filtered to those with a truthy
title, a truthy posterUrl and a truthy tmdbId. -/
def getPopularMovies (cfg : ResolverConfig) (gm : GenreMap)
    (apiKey : Option String) (cached : Option (List Media))
    (resp : Except String (List TmdbItem)) : List Media :=
  if !truthy apiKey then []
  else
    match cached with
    | some c => c
    | none =>
      match resp with
      | Except.error _ => []
      | Except.ok items =>
        (items.map (mapTmdbMovieItem cfg gm)).filter fun m =>
          truthy m.title && truthy m.posterUrl && truthyNat m.tmdbId

/-! ### Invariants of the dedup map state -/

/-- A well-formed entry of the seen map: the stored value passed the
validity guard, its dedup key is the stored key, and the key passed the
separator guard. -/
def goodPair (p : String × Media) : Prop :=
  validItem p.2 = true ∧ getDedupKey p.2 = p.1 ∧
    (p.1 == "" || p.1 == "_") = false

/-- A well-formed seen map: pairwise distinct keys and well-formed
entries. -/
def goodState (seen : List (String × Media)) : Prop :=
  (seen.map Prod.fst).Nodup ∧ ∀ p ∈ seen, goodPair p

/-! ## Theorems on the deduplicator -/

theorem findVal_eq_none_iff (l : List (String × Media)) (key : String) :
    findVal l key = none ↔ key ∉ l.map Prod.fst := by
  induction l with
  | nil => simp [findVal]
  | cons q rest ih =>
    obtain ⟨k, v⟩ := q
    by_cases hk : k = key
    · subst hk; simp [findVal]
    · simp [findVal, hk, ih, Ne.symm hk]

theorem mem_replaceVal {l : List (String × Media)} {key : String}
    {item : Media} {p : String × Media} (h : p ∈ replaceVal l key item) :
    p ∈ l ∨ p = (key, item) := by
  induction l with
  | nil => simp [replaceVal] at h
  | cons q rest ih =>
    obtain ⟨k, v⟩ := q
    by_cases hk : k = key
    · subst hk
      simp only [replaceVal, beq_self_eq_true, if_true, List.mem_cons] at h
      rcases h with h | h
      · right; exact h
      · left; exact List.mem_cons_of_mem _ h
    · simp only [replaceVal, beq_iff_eq, hk, if_false, List.mem_cons] at h
      rcases h with h | h
      · left; simp [h]
      · rcases ih h with h2 | h2
        · left; exact List.mem_cons_of_mem _ h2
        · right; exact h2

theorem replaceVal_map_fst (l : List (String × Media)) (key : String)
    (item : Media) :
    (replaceVal l key item).map Prod.fst = l.map Prod.fst := by
  induction l with
  | nil => rfl
  | cons q rest ih =>
    obtain ⟨k, v⟩ := q
    by_cases hk : k = key <;> simp [replaceVal, hk, ih]

theorem replaceVal_length (l : List (String × Media)) (key : String)
    (item : Media) : (replaceVal l key item).length = l.length := by
  induction l with
  | nil => rfl
  | cons q rest ih =>
    obtain ⟨k, v⟩ := q
    by_cases hk : k = key <;> simp [replaceVal, hk, ih]

theorem dedupStep_good (seen : List (String × Media)) (item : Media)
    (h : goodState seen) : goodState (dedupStep seen item) := by
  unfold dedupStep
  split
  next => exact h
  next hval =>
    split
    next => exact h
    next hkey =>
      split
      next hfind =>
        constructor
        · rw [List.map_append]
          have hnot := (findVal_eq_none_iff _ _).mp hfind
          simp [List.nodup_append, h.1, hnot]
        · intro p hp
          rcases List.mem_append.mp hp with hp | hp
          · exact h.2 p hp
          · simp only [List.mem_singleton] at hp
            subst hp
            exact ⟨by simpa using hval, rfl, by simpa using hkey⟩
      next existing hfind =>
        split
        next hpref =>
          constructor
          · rw [replaceVal_map_fst]; exact h.1
          · intro p hp
            rcases mem_replaceVal hp with hp | hp
            · exact h.2 p hp
            · subst hp
              exact ⟨by simpa using hval, rfl, by simpa using hkey⟩
        next => exact h

theorem goodState_foldl (l : List Media) :
    ∀ acc, goodState acc → goodState (l.foldl dedupStep acc) := by
  induction l with
  | nil => intro acc h; exact h
  | cons x rest ih => intro acc h; exact ih _ (dedupStep_good _ _ h)

theorem dedupStep_replay {acc : List (String × Media)} {k : String}
    {v : Media} (hg : goodPair (k, v)) (hk : k ∉ acc.map Prod.fst) :
    dedupStep acc v = acc ++ [(k, v)] := by
  obtain ⟨hval, hkey, hsep⟩ := hg
  simp only at hval hkey hsep
  simp [dedupStep, hkey, hval, hsep, (findVal_eq_none_iff acc k).mpr hk]

theorem foldl_replay :
    ∀ (seen acc : List (String × Media)), goodState (acc ++ seen) →
      List.foldl dedupStep acc (seen.map Prod.snd) = acc ++ seen := by
  intro seen
  induction seen with
  | nil => intro acc _; simp
  | cons q rest ih =>
    intro acc h
    obtain ⟨k, v⟩ := q
    have hg : goodPair (k, v) := h.2 _ (by simp)
    have hk : k ∉ acc.map Prod.fst := by
      intro hmem
      have hnd := h.1
      rw [List.map_append] at hnd
      rcases List.nodup_append.mp hnd with ⟨-, -, hdisj⟩
      exact hdisj hmem (by simp)
    rw [List.map_cons, List.foldl_cons, dedupStep_replay hg hk]
    have h' : goodState ((acc ++ [(k, v)]) ++ rest) := by
      simpa [List.append_assoc] using h
    rw [ih (acc ++ [(k, v)]) h']
    simp

/-- C2: running the deduplicator a second time over its own output changes
nothing: deduplicateMedia is idempotent on every input sequence. -/
theorem deduplicateMedia_idempotent (X : List Media) :
    deduplicateMedia (deduplicateMedia X) = deduplicateMedia X := by
  unfold deduplicateMedia
  have hg : goodState (X.foldl dedupStep []) :=
    goodState_foldl X [] ⟨List.nodup_nil, by simp⟩
  rw [foldl_replay (X.foldl dedupStep []) [] (by simpa using hg)]
  simp

theorem mem_dedupStep {seen : List (String × Media)} {item : Media}
    {p : String × Media} (h : p ∈ dedupStep seen item) :
    p ∈ seen ∨ p.2 = item := by
  unfold dedupStep at h
  split at h
  · left; exact h
  split at h
  · left; exact h
  split at h
  · rcases List.mem_append.mp h with h | h
    · left; exact h
    · simp only [List.mem_singleton] at h
      subst h; right; rfl
  split at h
  · rcases mem_replaceVal h with h | h
    · left; exact h
    · subst h; right; rfl
  · left; exact h

theorem dedupStep_length (seen : List (String × Media)) (item : Media) :
    (dedupStep seen item).length ≤ seen.length + 1 := by
  unfold dedupStep
  split
  · omega
  split
  · omega
  split
  · simp
  split
  · rw [replaceVal_length]; omega
  · omega

theorem foldl_dedup_length :
    ∀ (l : List Media) (acc : List (String × Media)),
      (l.foldl dedupStep acc).length ≤ acc.length + l.length := by
  intro l
  induction l with
  | nil => intro acc; simp
  | cons x rest ih =>
    intro acc
    have h1 := ih (dedupStep acc x)
    have h2 := dedupStep_length acc x
    simp only [List.foldl_cons, List.length_cons]
    omega

theorem foldl_dedup_mem :
    ∀ (l : List Media) (acc : List (String × Media)) (p : String × Media),
      p ∈ l.foldl dedupStep acc → p ∈ acc ∨ p.2 ∈ l := by
  intro l
  induction l with
  | nil => intro acc p h; left; exact h
  | cons x rest ih =>
    intro acc p h
    rcases ih (dedupStep acc x) p h with h2 | h2
    · rcases mem_dedupStep h2 with h3 | h3
      · left; exact h3
      · right; rw [h3]; exact List.mem_cons_self x rest
    · right; exact List.mem_cons_of_mem _ h2

/-- C10: the deduplicator only selects records: every output record occurs
in the input, the output records have pairwise distinct dedup keys, and the
output is no longer than the input. -/
theorem deduplicateMedia_selects (X : List Media) :
    (∀ m ∈ deduplicateMedia X, m ∈ X) ∧
    ((deduplicateMedia X).map getDedupKey).Nodup ∧
    (deduplicateMedia X).length ≤ X.length := by
  have hg : goodState (X.foldl dedupStep []) :=
    goodState_foldl X [] ⟨List.nodup_nil, by simp⟩
  refine ⟨?_, ?_, ?_⟩
  · intro m hm
    unfold deduplicateMedia at hm
    rcases List.mem_map.mp hm with ⟨p, hp, rfl⟩
    rcases foldl_dedup_mem X [] p hp with h | h
    · simp at h
    · exact h
  · unfold deduplicateMedia
    rw [List.map_map]
    have heq : (X.foldl dedupStep []).map (getDedupKey ∘ Prod.snd) =
        (X.foldl dedupStep []).map Prod.fst := by
      apply List.map_congr_left
      intro p hp
      exact (hg.2 p hp).2.1
    rw [heq]
    exact hg.1
  · unfold deduplicateMedia
    rw [List.length_map]
    simpa using foldl_dedup_length X []

/-- Witness for C10 at a concrete input: the surviving record of a
two-element input is one of the inputs. -/
theorem deduplicateMedia_selects_witness :
    ({ title := some "Alpha", source := some "tmdb" : Media}) ∈
      [({ title := some "Alpha", source := some "tmdb" : Media}),
       ({ title := some "alpha" : Media})] :=
  (deduplicateMedia_selects
    [({ title := some "Alpha", source := some "tmdb" : Media}),
     ({ title := some "alpha" : Media})]).1
    ({ title := some "Alpha", source := some "tmdb" : Media}) (by decide)

/-- C7: on exactly the two colliding records of the scenario, the
deduplicator keeps only the second (local) record with the poster, and its
source field stays undefined: the first record is fully discarded. -/
theorem deduplicateMedia_dune_scenario :
    deduplicateMedia
      [{ title := some "Dune", year := some "2021", source := some "tmdb",
         posterUrl := none },
       { title := some "dune!!", year := some "2021", source := none,
         posterUrl := some "http://x/p.jpg" }] =
      [{ title := some "dune!!", year := some "2021", source := none,
         posterUrl := some "http://x/p.jpg" }] ∧
    ({ title := some "dune!!", year := some "2021", source := none,
       posterUrl := some "http://x/p.jpg" : Media}).source = none := by
  constructor
  · decide
  · rfl

/-! ## Theorems on the response cache -/

/-- C3: an entry written at a positive epoch time T is returned by the
reader at every time with now minus T strictly below the 24h expiry, and is
a miss once now minus T reaches the expiry: the comparison is strict. -/
theorem getCached_ttl_boundary {α : Type} (store : CacheStore α) (key : String)
    (T : Int) (data : α) (now : Int) (hT : 0 < T) :
    (now - T < cacheExpiry →
      getCached (setCache store key T data) key now = some data) ∧
    (cacheExpiry ≤ now - T →
      getCached (setCache store key T data) key now = none) := by
  have h1 : (T != 0) = true := by
    simp only [bne_iff_ne, ne_eq]
    omega
  constructor
  · intro hlt
    simp [getCached, setCache, h1, hlt]
  · intro hge
    have hc : ¬(now - T < cacheExpiry) := by omega
    simp [getCached, setCache, hc]

/-- Witness for C3 at a concrete write time: a hit one millisecond before
the boundary and a miss one millisecond after it. -/
theorem getCached_ttl_boundary_witness :
    getCached (setCache (fun _ => none) "popular_movies_1" 1700000000000
        (42 : Nat)) "popular_movies_1" (1700000000000 + cacheExpiry - 1) =
      some 42 ∧
    getCached (setCache (fun _ => none) "popular_movies_1" 1700000000000
        (42 : Nat)) "popular_movies_1" (1700000000000 + cacheExpiry + 1) =
      none := by
  constructor
  · exact (getCached_ttl_boundary (fun _ => none) "popular_movies_1"
      1700000000000 42 (1700000000000 + cacheExpiry - 1) (by omega)).1
      (by omega)
  · exact (getCached_ttl_boundary (fun _ => none) "popular_movies_1"
      1700000000000 42 (1700000000000 + cacheExpiry + 1) (by omega)).2
      (by omega)

/-! ## Theorems on the streaming resolver -/

theorem resolveVerifiedLoop_isSome_iff (head : HeadOracle) (id type : String)
    (o : StreamOptions) (l : List Source) :
    (resolveVerifiedLoop head id type o l).1.isSome = true ↔
      ∃ s ∈ l, ∃ url, getStreamingUrlFromSource id type o (some s) = some url ∧
        checkStreamingUrlAvailability head (some url) = true := by
  induction l with
  | nil => simp [resolveVerifiedLoop]
  | cons s rest ih =>
    cases hbuild : getStreamingUrlFromSource id type o (some s) with
    | none =>
      simp only [resolveVerifiedLoop, hbuild]
      rw [ih]
      constructor
      · rintro ⟨s', hs', url, hb, hl⟩
        exact ⟨s', List.mem_cons_of_mem _ hs', url, hb, hl⟩
      · rintro ⟨s', hs', url, hb, hl⟩
        rcases List.mem_cons.mp hs' with rfl | hs'
        · rw [hbuild] at hb; cases hb
        · exact ⟨s', hs', url, hb, hl⟩
    | some url =>
      by_cases hlive : checkStreamingUrlAvailability head (some url) = true
      · simp only [resolveVerifiedLoop, hbuild, hlive, if_true,
          Option.isSome_some, true_iff]
        exact ⟨s, List.mem_cons_self s rest, url, hbuild, hlive⟩
      · simp only [resolveVerifiedLoop, hbuild]
        rw [if_neg hlive]
        show (resolveVerifiedLoop head id type o rest).1.isSome = true ↔ _
        rw [ih]
        constructor
        · rintro ⟨s', hs', url', hb, hl⟩
          exact ⟨s', List.mem_cons_of_mem _ hs', url', hb, hl⟩
        · rintro ⟨s', hs', url', hb, hl⟩
          rcases List.mem_cons.mp hs' with rfl | hs'
          · rw [hbuild] at hb
            cases hb
            exact absurd hl hlive
          · exact ⟨s', hs', url', hb, hl⟩

theorem resolveVerifiedLoop_none_of_not_live (head : HeadOracle)
    (id type : String) (o : StreamOptions) (l : List Source)
    (h : ∀ s ∈ l, ∀ url, getStreamingUrlFromSource id type o (some s) = some url →
      checkStreamingUrlAvailability head (some url) = false) :
    (resolveVerifiedLoop head id type o l).1 = none := by
  rw [← Option.not_isSome_iff_eq_none]
  intro hsome
  rcases (resolveVerifiedLoop_isSome_iff head id type o l).mp hsome with
    ⟨s, hs, url, hb, hl⟩
  rw [h s hs url hb] at hl
  cases hl

/-- C4: with zero enabled fallback sources both resolution modes return
null and the availability check returns false; with at least one enabled
source and every built URL judged not live, the verified resolver returns
the top-priority enabled source's URL, hence not null when that source
builds one. -/
theorem resolver_fallback_policy (useC : Bool) (srcs : List Source)
    (head : HeadOracle) (id type : String) (o : StreamOptions) :
    (srcs.filter (fun s => s.enabled) = [] →
      getStreamingUrlSync useC srcs id type o = none ∧
      getStreamingUrl useC srcs head id type o true = none ∧
      checkCinetaroAvailability useC srcs head id type o = false) ∧
    (∀ s₀ rest, sortedEnabledSources srcs = s₀ :: rest →
      (∀ s ∈ s₀ :: rest, ∀ url,
        getStreamingUrlFromSource id type o (some s) = some url →
        checkStreamingUrlAvailability head (some url) = false) →
      getStreamingUrl true srcs head id type o true =
        getStreamingUrlFromSource id type o (some s₀) ∧
      (∀ u₀, getStreamingUrlFromSource id type o (some s₀) = some u₀ →
        getStreamingUrl true srcs head id type o true = some u₀)) := by
  constructor
  · intro hempty
    have hs : sortedEnabledSources srcs = [] := by
      simp [sortedEnabledSources, hempty]
    cases useC with
    | false =>
      refine ⟨?_, ?_, ?_⟩ <;>
        simp [getStreamingUrlSync, getStreamingUrl, getStreamingUrlWithTrace,
          checkCinetaroAvailability]
    | true =>
      refine ⟨?_, ?_, ?_⟩ <;>
        simp [getStreamingUrlSync, getStreamingUrl, getStreamingUrlWithTrace,
          checkCinetaroAvailability, hs, resolveVerifiedLoop]
  · intro s₀ rest hsort hnolive
    have hloop := resolveVerifiedLoop_none_of_not_live head id type o
      (s₀ :: rest) hnolive
    constructor
    · simp [getStreamingUrl, getStreamingUrlWithTrace, hsort, hloop]
    · intro u₀ hu₀
      simp [getStreamingUrl, getStreamingUrlWithTrace, hsort, hloop, hu₀]

/-- Witness for C4: concretely, an empty source list gives null/null/false,
and a single enabled source whose URL probes dead still resolves to that
source's URL. -/
theorem resolver_fallback_policy_witness :
    (getStreamingUrlSync true [] "550" "movie" {} = none ∧
      getStreamingUrl true [] (fun _ => none) "550" "movie" {} true = none ∧
      checkCinetaroAvailability true [] (fun _ => none) "550" "movie" {} =
        false) ∧
    getStreamingUrl true
        [{ name := "cinetaro", baseUrl := "https://a", priority := 1,
           enabled := true }]
        (fun _ => none) "550" "movie" {} true =
      some "https://a/movie/550/english" := by
  constructor
  · exact (resolver_fallback_policy true [] (fun _ => none) "550" "movie"
      {}).1 (by decide)
  · exact ((resolver_fallback_policy true
      [{ name := "cinetaro", baseUrl := "https://a", priority := 1,
         enabled := true }]
      (fun _ => none) "550" "movie" {}).2
      { name := "cinetaro", baseUrl := "https://a", priority := 1,
        enabled := true } [] (by decide) (by decide)).2
      "https://a/movie/550/english" (by decide)

/-- C5: with enabled sources A, B, C in ascending priority order, A's URL
judged not live and B's judged live, the verified resolver returns B's URL,
the probe trace is exactly A's URL then B's URL, and C's URL (when distinct
from those) is never probed. -/
theorem resolver_short_circuit (srcs : List Source) (head : HeadOracle)
    (id type : String) (o : StreamOptions) (A B C : Source) (uA uB : String)
    (hsort : sortedEnabledSources srcs = [A, B, C])
    (hbA : getStreamingUrlFromSource id type o (some A) = some uA)
    (hlA : checkStreamingUrlAvailability head (some uA) = false)
    (hbB : getStreamingUrlFromSource id type o (some B) = some uB)
    (hlB : checkStreamingUrlAvailability head (some uB) = true) :
    getStreamingUrl true srcs head id type o true = some uB ∧
    (getStreamingUrlWithTrace true srcs head id type o true).2 = [uA, uB] ∧
    (∀ uC, getStreamingUrlFromSource id type o (some C) = some uC →
      uC ≠ uA → uC ≠ uB →
      uC ∉ (getStreamingUrlWithTrace true srcs head id type o true).2) := by
  have htrace : getStreamingUrlWithTrace true srcs head id type o true =
      (some uB, [uA, uB]) := by
    simp [getStreamingUrlWithTrace, resolveVerifiedLoop, hsort, hbA, hlA,
      hbB, hlB]
  refine ⟨?_, ?_, ?_⟩
  · simp [getStreamingUrl, htrace]
  · simp [htrace]
  · intro uC _ hCA hCB
    simp [htrace, hCA, hCB]

/-- Witness for C5: three concrete sources where the first probes dead and
the second probes live. -/
theorem resolver_short_circuit_witness :
    getStreamingUrl true
        [{ name := "cinetaro", baseUrl := "https://a", priority := 1,
           enabled := true },
         { name := "cinetaro-alt", baseUrl := "https://b", priority := 2,
           enabled := true },
         { name := "vidsrc", baseUrl := "https://c", priority := 3,
           enabled := true }]
        (fun u => if u = "https://b/movie/1/english" then some 200 else none)
        "1" "movie" {} true = some "https://b/movie/1/english" :=
  (resolver_short_circuit
    [{ name := "cinetaro", baseUrl := "https://a", priority := 1,
       enabled := true },
     { name := "cinetaro-alt", baseUrl := "https://b", priority := 2,
       enabled := true },
     { name := "vidsrc", baseUrl := "https://c", priority := 3,
       enabled := true }]
    (fun u => if u = "https://b/movie/1/english" then some 200 else none)
    "1" "movie" {}
    { name := "cinetaro", baseUrl := "https://a", priority := 1,
      enabled := true }
    { name := "cinetaro-alt", baseUrl := "https://b", priority := 2,
      enabled := true }
    { name := "vidsrc", baseUrl := "https://c", priority := 3,
      enabled := true }
    "https://a/movie/1/english" "https://b/movie/1/english"
    (by decide) (by decide) (by decide) (by decide) (by decide)).1

/-- Counterexample to C1 as stated: with the default source list and a
probe oracle under which the network never answers, every probed URL is
judged not live, all four enabled sources are probed, and yet the
availability check returns true via the best-effort fallback URL. -/
theorem checkCinetaro_true_without_live :
    checkCinetaroAvailability true defaultFallbackSources (fun _ => none)
      "550" "movie" {} = true ∧
    ((getStreamingUrlWithTrace true defaultFallbackSources (fun _ => none)
        "550" "movie" {} true).2.all
      fun u => !checkStreamingUrlAvailability (fun _ => none) (some u)) =
      true ∧
    (getStreamingUrlWithTrace true defaultFallbackSources (fun _ => none)
      "550" "movie" {} true).2.length = 4 := by
  refine ⟨?_, ?_, ?_⟩ <;> decide

/-- C1 amended: the availability check returns true exactly when the
feature toggle is on, at least one source is enabled, and either some
enabled source's built URL is judged live or the top-priority enabled
source builds a URL at all (the deliberate fallback); it is not equivalent
to the existence of a live source. -/
theorem checkCinetaroAvailability_iff (useC : Bool) (srcs : List Source)
    (head : HeadOracle) (id type : String) (o : StreamOptions) :
    checkCinetaroAvailability useC srcs head id type o = true ↔
      (useC = true ∧ ∃ s₀ rest, sortedEnabledSources srcs = s₀ :: rest ∧
        ((∃ s ∈ s₀ :: rest, ∃ url,
            getStreamingUrlFromSource id type o (some s) = some url ∧
            checkStreamingUrlAvailability head (some url) = true) ∨
          (getStreamingUrlFromSource id type o (some s₀)).isSome = true)) := by
  cases useC with
  | false => simp [checkCinetaroAvailability]
  | true =>
    simp only [checkCinetaroAvailability, getStreamingUrl,
      getStreamingUrlWithTrace, Bool.not_true, Bool.false_eq_true, if_false,
      true_and]
    cases hsort : sortedEnabledSources srcs with
    | nil => simp [resolveVerifiedLoop]
    | cons s₀ rest =>
      cases hloop : (resolveVerifiedLoop head id type o (s₀ :: rest)).1 with
      | some u =>
        simp only [hloop, Option.isSome_some, true_iff]
        have hex := (resolveVerifiedLoop_isSome_iff head id type o
          (s₀ :: rest)).mp (by rw [hloop]; rfl)
        exact ⟨s₀, rest, rfl, Or.inl hex⟩
      | none =>
        simp only [hloop]
        constructor
        · intro hb
          exact ⟨s₀, rest, rfl, Or.inr hb⟩
        · rintro ⟨s₀', rest', heq, hcase⟩
          have h1 : s₀ = s₀' := by injection heq
          rcases hcase with hex | hb
          · rw [← heq] at hex
            have h2 := (resolveVerifiedLoop_isSome_iff head id type o
              (s₀ :: rest)).mpr hex
            rw [hloop] at h2
            cases h2
          · rw [h1]
            exact hb

/-- Witness for the amended C1: a single enabled dead source still makes
the availability check return true through the fallback branch. -/
theorem checkCinetaroAvailability_iff_witness :
    checkCinetaroAvailability true
      [{ name := "cinetaro", baseUrl := "https://a", priority := 1,
         enabled := true }]
      (fun _ => none) "550" "movie" {} = true :=
  (checkCinetaroAvailability_iff true
    [{ name := "cinetaro", baseUrl := "https://a", priority := 1,
       enabled := true }]
    (fun _ => none) "550" "movie" {}).mpr
    ⟨rfl,
      { name := "cinetaro", baseUrl := "https://a", priority := 1,
        enabled := true }, [], by decide, Or.inr (by decide)⟩

/-! ## Theorems on the bulk-load batching -/

theorem tracePages_append (a b : List BulkEvent) :
    tracePages (a ++ b) = tracePages a ++ tracePages b := by
  induction a with
  | nil => rfl
  | cons ev rest ih =>
    cases ev with
    | batch ps => simp [tracePages, ih]
    | delay ms => simp [tracePages, ih]

theorem tracePages_bulkBatchLoop (d : Nat) :
    ∀ s e : Nat, tracePages (bulkBatchLoop d s e) = List.range' s (e + 1 - s) := by
  suffices H : ∀ n s e, e + 1 - s ≤ n →
      tracePages (bulkBatchLoop d s e) = List.range' s (e + 1 - s) by
    intro s e
    exact H (e + 1 - s) s e le_rfl
  intro n
  induction n with
  | zero =>
    intro s e h
    have hgt : ¬s ≤ e := by omega
    rw [bulkBatchLoop, dif_neg hgt]
    rw [show e + 1 - s = 0 by omega]
    rfl
  | succ n ih =>
    intro s e h
    by_cases hle : s ≤ e
    · rw [bulkBatchLoop, dif_pos hle]
      have hrec := ih (s + 2) e (by omega)
      by_cases hse : s + 1 ≤ e
      · have hmin : min (s + 1) e = s + 1 := Nat.min_eq_left hse
        rw [hmin]
        by_cases hd : s + 1 < e
        · rw [if_pos hd, tracePages_append]
          simp only [tracePages]
          rw [hrec, List.append_nil]
          rw [show s + 1 + 1 - s = 2 by omega,
            show e + 1 - s = (e + 1 - (s + 2)) + 2 by omega]
          simp [List.range']
        · have he2 : e = s + 1 := by omega
          subst he2
          rw [if_neg hd, tracePages_append]
          simp only [tracePages]
          rw [hrec, List.append_nil]
          rw [show s + 1 + 1 - s = 2 by omega,
            show s + 1 + 1 - (s + 2) = 0 by omega]
          simp [List.range']
      · have he2 : e = s := by omega
        have hmin : min (s + 1) e = e := Nat.min_eq_right (by omega)
        rw [hmin, if_neg (lt_irrefl e), tracePages_append]
        simp only [tracePages]
        rw [hrec, List.append_nil, he2]
        rw [show s + 1 - s = 1 by omega,
          show s + 1 - (s + 2) = 0 by omega]
        simp [List.range']
    · rw [bulkBatchLoop, dif_neg hle]
      rw [show e + 1 - s = 0 by omega]
      rfl

/-- C6: per endpoint, the bulk loop partitions the requested page range
into consecutive-page batches whose concatenation is exactly the range,
and concretely for startPage 1 and pageCount 5 both bulk endpoints issue
exactly the batches of pages 1 and 2, 3 and 4, and 5, with an inter-batch
delay (100ms movies, 200ms anime) only between consecutive batches and
never after the last. -/
theorem bulk_batching :
    (∀ d s e : Nat, tracePages (bulkBatchLoop d s e) =
      List.range' s (e + 1 - s)) ∧
    bulkMoviesTrace 1 5 =
      [BulkEvent.batch [1, 2], BulkEvent.delay 100, BulkEvent.batch [3, 4],
       BulkEvent.delay 100, BulkEvent.batch [5]] ∧
    bulkAnimeTrace 1 5 =
      [BulkEvent.batch [1, 2], BulkEvent.delay 200, BulkEvent.batch [3, 4],
       BulkEvent.delay 200, BulkEvent.batch [5]] := by
  refine ⟨tracePages_bulkBatchLoop, ?_, ?_⟩
  · show bulkBatchLoop 100 1 (1 + min 5 20 - 1) = _
    norm_num
    rw [bulkBatchLoop]
    norm_num
    rw [bulkBatchLoop]
    norm_num
    rw [bulkBatchLoop]
    norm_num
    rw [bulkBatchLoop]
    norm_num
    simp [List.range']
  · show bulkBatchLoop 200 1 (1 + min 5 20 - 1) = _
    norm_num
    rw [bulkBatchLoop]
    norm_num
    rw [bulkBatchLoop]
    norm_num
    rw [bulkBatchLoop]
    norm_num
    rw [bulkBatchLoop]
    norm_num
    simp [List.range']

/-! ## Theorems on adapter error handling and filtering -/

/-- C9: an adapter fetch whose upstream call fails returns the empty list
rather than raising, and the bulk loop over two providers where every call
of the first fails returns exactly the second provider's records. -/
theorem adapters_graceful_degradation :
    (∀ (cfg : ResolverConfig) (gm : GenreMap) (apiKey : Option String)
      (e : String),
      searchMovies cfg gm apiKey none (Except.error e) = [] ∧
      getPopularMovies cfg gm apiKey none (Except.error e) = []) ∧
    (∀ (fA fB : PageFetch) (d s e : Nat),
      (∀ p, ∃ msg, fA p = Except.error msg) →
      bulkRecords [fA, fB] d s e = bulkRecords [fB] d s e) := by
  constructor
  · intro cfg gm apiKey e
    cases htr : truthy apiKey <;>
      simp [searchMovies, getPopularMovies, htr]
  · intro fA fB d s e hfail
    have hsafe : ∀ p, fetchPageSafe fA p = [] := by
      intro p
      rcases hfail p with ⟨msg, hp⟩
      simp [fetchPageSafe, hp]
    have hnil : ∀ l : List Nat, l.flatMap (fetchPageSafe fA) = [] := by
      intro l
      induction l with
      | nil => rfl
      | cons p ps ih => simp [hsafe p, ih]
    simp [bulkRecords, hnil]

/-- Witness for C9: a provider that always times out contributes nothing
next to a provider that always succeeds. -/
theorem adapters_graceful_degradation_witness :
    bulkRecords
        [fun _ => Except.error "timeout",
         fun _ => Except.ok [{ title := some "B" : Media}]] 100 1 2 =
      bulkRecords [fun _ => Except.ok [{ title := some "B" : Media}]] 100 1 2 :=
  adapters_graceful_degradation.2
    (fun _ => Except.error "timeout")
    (fun _ => Except.ok [{ title := some "B" : Media}]) 100 1 2
    (fun _ => ⟨"timeout", rfl⟩)

/-- Counterexample to C8 as stated: the search adapter applies no
title/poster filter, so an upstream item without a poster path is returned
with a null posterUrl. -/
theorem searchMovies_emits_posterless :
    ((searchMovies { useCinetaro := false, fallbackSources := [] }
        (fun _ => none) (some "key") none
        (Except.ok [{ id := 7, title := some "NoPoster" }])).all
      fun m => truthy m.title && truthy m.posterUrl) = false := by
  decide

/-- C8 amended: the popular-movies listing adapter filters its freshly
mapped records so that each returned record has a truthy title, a truthy
posterUrl and a truthy tmdbId; the search adapter applies no such filter. -/
theorem getPopularMovies_filters (cfg : ResolverConfig) (gm : GenreMap)
    (apiKey : Option String) (resp : Except String (List TmdbItem)) :
    ∀ m ∈ getPopularMovies cfg gm apiKey none resp,
      truthy m.title = true ∧ truthy m.posterUrl = true ∧
        truthyNat m.tmdbId = true := by
  intro m hm
  unfold getPopularMovies at hm
  split at hm
  · simp at hm
  · cases resp with
    | error e => simp at hm
    | ok items =>
      simp only at hm
      have := (List.mem_filter.mp hm).2
      simp only [Bool.and_eq_true] at this
      exact ⟨this.1.1, this.1.2, this.2⟩

/-- Witness for the amended C8: the record surviving the filter on a
one-item response has a truthy posterUrl. -/
theorem getPopularMovies_filters_witness :
    truthy ((getPopularMovies { useCinetaro := false, fallbackSources := [] }
        (fun _ => none) (some "k") none
        (Except.ok
          [{ id := 7, title := some "T", poster_path := some "/p.jpg" }])
        ).headD {}).posterUrl = true :=
  (getPopularMovies_filters { useCinetaro := false, fallbackSources := [] }
    (fun _ => none) (some "k")
    (Except.ok [{ id := 7, title := some "T", poster_path := some "/p.jpg" }])
    ((getPopularMovies { useCinetaro := false, fallbackSources := [] }
      (fun _ => none) (some "k") none
      (Except.ok
        [{ id := 7, title := some "T", poster_path := some "/p.jpg" }])
      ).headD {}) (by decide)).2.1

end MediaServer
